import Mathlib

/-!
Verification of the session-memory and chat-turn behaviour of the
`deepseek-ai.py` dashboard (repository `gent`).

The embedding translates the Python source shallowly:

* `st.session_state.messages` / `st.session_state.full_history` become the two
  list fields of `ChatMemory` (the spec calls them `displayed` and `window`
  respectively); `self.max_messages` is a `Nat`.
* the `while len(...) > max: pop(0)` trimming loop of `add_message` becomes the
  structurally recursive `trimHistory`;
* Python's negative-index slice `full_history[-max_messages:]` used by
  `get_context` becomes `sliceLast`, which keeps Python's corner case that
  `l[-0:]` is the whole list;
* `query_deepseek` is embedded as a function of the network outcome
  (transport exception, or an HTTP response with a status code and the
  optional `choices[0].message.content` field), returning the optional
  response data together with the resulting memory state;
* `process_uploaded_files` is embedded over a list of already-extracted file
  records (name, MIME branch taken, extracted/decoded text, and whether the
  extraction raised), since pdfplumber/chardet themselves are external.
-/

namespace DeepseekAI

/-- A chat message: a dict `{"role": ..., "content": ...}` in the source. -/
structure Message where
  role : String
  content : String
  deriving DecidableEq, Repr

/-- `MAX_CONTEXT_MESSAGES = 8` (line 11 of the source). -/
def MAX_CONTEXT_MESSAGES : Nat := 8

/-- `MAX_FILE_CONTENT = 1000` (line 12 of the source). -/
def MAX_FILE_CONTENT : Nat := 1000

/-- The session state owned by `ChatMemory`: `st.session_state.messages`
(the displayed scrollback), `st.session_state.full_history` (the trimmed
context window), and the instance configuration `self.max_messages`. -/
structure ChatMemory where
  max_messages : Nat
  messages : List Message
  full_history : List Message
  deriving DecidableEq, Repr

/-- `ChatMemory.__init__(max_messages)` on a fresh session: stores the bound
and `initialize_session` creates both lists empty. -/
def ChatMemory.new (max_messages : Nat) : ChatMemory :=
  { max_messages := max_messages, messages := [], full_history := [] }

/-- `initialize_session` on an already-initialized session: the guard
`"messages" not in st.session_state` fails, so nothing happens. -/
def ChatMemory.initialize_session (m : ChatMemory) : ChatMemory := m

/-- The `while len(full_history) > max_messages: full_history.pop(0)` loop of
`add_message` (lines 48-50): drop elements from the front until the length is
within the bound. The logging of each removed entry is a pure side channel. -/
def trimHistory (max_messages : Nat) : List Message → List Message
  | [] => []
  | msg :: rest =>
    if max_messages < (msg :: rest).length then trimHistory max_messages rest
    else msg :: rest

/-- `add_message(role, content)` (lines 45-50): append the message to both
lists, then run the trimming loop on `full_history` only. -/
def ChatMemory.add_message (m : ChatMemory) (role content : String) : ChatMemory :=
  { m with
    messages := m.messages ++ [⟨role, content⟩],
    full_history := trimHistory m.max_messages (m.full_history ++ [⟨role, content⟩]) }

/-- Python's slice `l[-k:]`. For `k = 0` Python reads `l[0:]`, the whole
list; otherwise it is the suffix of length at most `k`. -/
def sliceLast (l : List Message) (k : Nat) : List Message :=
  if k = 0 then l else l.drop (l.length - k)

/-- `get_context(system_prompt)` (lines 52-53): a fresh system message
followed by `full_history[-max_messages:]`. -/
def ChatMemory.get_context (m : ChatMemory) (system_prompt : String) : List Message :=
  ⟨"system", system_prompt⟩ :: sliceLast m.full_history m.max_messages

/-- The method call `get_context` as a state-passing transition: the body of
the method (line 53) only reads `st.session_state.full_history`, performing no
assignment, so the outgoing state is the incoming one. -/
def ChatMemory.get_contextS (m : ChatMemory) (system_prompt : String) :
    List Message × ChatMemory :=
  (m.get_context system_prompt, m)

/-- `clear_memory` (lines 55-57): both lists are reset to empty;
`self.max_messages` is untouched. -/
def ChatMemory.clear_memory (m : ChatMemory) : ChatMemory :=
  { m with messages := [], full_history := [] }

/-- The part of the parsed response JSON that `query_deepseek` consumes:
`choices[0].message.content`, when that path exists. The chained
`.get(..., default)` calls on line 106 produce `""` when it is missing. -/
structure ResponseData where
  content : Option String
  deriving DecidableEq, Repr

/-- Outcome of `requests.post` on line 101: either a transport-level
`RequestException`, or an HTTP response carrying a status code and a body. -/
inductive NetOutcome where
  | transportError
  | response (status : Nat) (data : ResponseData)
  deriving DecidableEq, Repr

/-- `query_deepseek(prompt, system_prompt, memory, ...)` (lines 84-119) as a
function of the network outcome. A transport exception is caught by the
`except` clause and returns `None`; `raise_for_status()` (line 102) raises an
`HTTPError` (a `RequestException`) for any status of 400 or above, landing in
the same `except`; a 200 status extracts the assistant content (defaulting to
`""`), appends the user prompt and then the assistant reply to memory, and
returns the response data; any other sub-400 status falls through the `with`
block to the `return None` on line 114 without touching memory. The payload
construction on lines 92-96 only reads the memory through `get_context`
(shown read-only in `get_context_pure` below), so it contributes nothing to
the state transition; the `system_prompt` argument is kept for signature
fidelity. -/
def query_deepseek (outcome : NetOutcome) (prompt system_prompt : String)
    (memory : ChatMemory) : Option ResponseData × ChatMemory :=
  match outcome with
  | .transportError => (none, memory)
  | .response status data =>
    if 400 ≤ status then
      (none, memory)
    else if status = 200 then
      let assistant_response := data.content.getD ""
      let memory1 := memory.add_message "user" prompt
      let memory2 := memory1.add_message "assistant" assistant_response
      (some data, memory2)
    else
      (none, memory)

/-- An uploaded file as `process_uploaded_files` sees it, after the external
libraries have run: its name, whether the declared MIME type was
`application/pdf`, the text pdfplumber extracted (resp. the chardet-decoded
raw bytes), and whether any of those steps raised an exception. -/
structure UploadedFile where
  name : String
  isPdf : Bool
  text : String
  readOk : Bool
  deriving DecidableEq, Repr

/-- Python's character slice `s[:n]` on a string. -/
def strSlice (s : String) (n : Nat) : String :=
  ⟨s.data.take n⟩

/-- The per-file string built by the loop body of `process_uploaded_files`
(lines 70 and 77): an f-string with the provenance tag, the file name, a
separator, the text truncated to `MAX_FILE_CONTENT` characters, and a
trailing ellipsis. -/
def processOneFile (f : UploadedFile) : String :=
  if f.isPdf then
    "PDF_CONTENT:" ++ f.name ++ ": " ++ strSlice f.text MAX_FILE_CONTENT ++ "..."
  else
    "FILE_CONTENT:" ++ f.name ++ ": " ++ strSlice f.text MAX_FILE_CONTENT ++ "..."

/-- `process_uploaded_files(files)` (lines 60-81): each file that processes
without an exception contributes its per-file string (a file whose processing
raises is logged and skipped); the results are joined with newlines. -/
def process_uploaded_files (files : List UploadedFile) : String :=
  String.intercalate "\n" ((files.filter (fun f => f.readOk)).map processOneFile)

/-- The operations the presentation layer performs on a `ChatMemory`. -/
inductive MemOp where
  | add (role content : String)
  | clear
  | initSession
  deriving DecidableEq, Repr

/-- Apply one memory operation. -/
def applyOp (m : ChatMemory) : MemOp → ChatMemory
  | .add role content => m.add_message role content
  | .clear => m.clear_memory
  | .initSession => m.initialize_session

/-- Run a sequence of memory operations left to right. -/
def runOps (m : ChatMemory) : List MemOp → ChatMemory
  | [] => m
  | op :: rest => runOps (applyOp m op) rest

/-- Run a sequence of `add_message` calls left to right. -/
def addMany (m : ChatMemory) : List (String × String) → ChatMemory
  | [] => m
  | (role, content) :: rest => addMany (m.add_message role content) rest

/-! ### Basic lemmas about the embedding -/

theorem trimHistory_eq_drop (k : Nat) (l : List Message) :
    trimHistory k l = l.drop (l.length - k) := by
  induction l with
  | nil => simp [trimHistory]
  | cons x rest ih =>
    by_cases h : k < (x :: rest).length
    · have h1 : (x :: rest).length - k = (rest.length - k) + 1 := by
        simp only [List.length_cons] at h ⊢; omega
      simp only [trimHistory, if_pos h, ih, h1, List.drop_succ_cons]
    · have h2 : (x :: rest).length - k = 0 := by
        simp only [List.length_cons] at h ⊢; omega
      simp only [trimHistory, if_neg h, h2, List.drop_zero]

theorem trimHistory_length_le (k : Nat) (l : List Message) :
    (trimHistory k l).length ≤ k := by
  rw [trimHistory_eq_drop, List.length_drop]
  omega

theorem add_message_messages (m : ChatMemory) (role content : String) :
    (m.add_message role content).messages = m.messages ++ [⟨role, content⟩] := rfl

theorem add_message_max (m : ChatMemory) (role content : String) :
    (m.add_message role content).max_messages = m.max_messages := rfl

theorem addMany_max (m : ChatMemory) (calls : List (String × String)) :
    (addMany m calls).max_messages = m.max_messages := by
  induction calls generalizing m with
  | nil => rfl
  | cons rc rest ih =>
    obtain ⟨r, c⟩ := rc
    simpa [addMany] using ih (m.add_message r c)

theorem addMany_messages (m : ChatMemory) (calls : List (String × String)) :
    (addMany m calls).messages =
      m.messages ++ calls.map (fun rc => ⟨rc.1, rc.2⟩) := by
  induction calls generalizing m with
  | nil => simp [addMany]
  | cons rc rest ih =>
    obtain ⟨r, c⟩ := rc
    simp [addMany, ih (m.add_message r c), add_message_messages]

theorem getLast?_drop_of_ne_nil {α : Type _} (l : List α) (n : Nat)
    (h : l.drop n ≠ []) : (l.drop n).getLast? = l.getLast? := by
  have key : l.getLast? = (l.drop n).getLast?.or (l.take n).getLast? := by
    conv_lhs => rw [← List.take_append_drop n l]
    rw [List.getLast?_append]
  obtain ⟨a, ha⟩ : ∃ a, (l.drop n).getLast? = some a := by
    cases hD : (l.drop n).getLast? with
    | none => exact absurd (List.getLast?_eq_none_iff.mp hD) h
    | some a => exact ⟨a, rfl⟩
  rw [key, ha, Option.or]

theorem add_message_full_history (m : ChatMemory) (role content : String) :
    (m.add_message role content).full_history =
      (m.full_history ++ [Message.mk role content]).drop
        ((m.full_history.length + 1) - m.max_messages) := by
  have e : (m.add_message role content).full_history =
      trimHistory m.max_messages (m.full_history ++ [Message.mk role content]) := rfl
  rw [e, trimHistory_eq_drop]
  simp

/-! ### Claim theorems -/

/-- C2: for every sequence of `add_message` calls on a `ChatMemory` with bound
`max_messages = N`, after each call the window list `full_history` has length
at most `N`. (Every prefix of a call sequence that ends at a call has the form
`addMany (m.add_message role content) calls`.) -/
theorem window_length_bounded (m : ChatMemory) (role content : String)
    (calls : List (String × String)) :
    (addMany (m.add_message role content) calls).full_history.length ≤
      m.max_messages := by
  induction calls generalizing m role content with
  | nil => exact trimHistory_length_le _ _
  | cons rc rest ih =>
    obtain ⟨r, c⟩ := rc
    have h := ih (m.add_message role content) r c
    simpa [addMany, add_message_max] using h

/-- C3: on any state satisfying the documented window invariant (or with a
positive bound), `get_context p` is the system message `{role: system,
content: p}` followed by the suffix of `full_history` of length at most
`max_messages`, in order. -/
theorem get_context_system_then_suffix (m : ChatMemory) (p : String)
    (h : m.full_history.length ≤ m.max_messages ∨ m.max_messages ≠ 0) :
    m.get_context p =
      ⟨"system", p⟩ ::
        m.full_history.drop (m.full_history.length - m.max_messages) := by
  unfold ChatMemory.get_context sliceLast
  by_cases h0 : m.max_messages = 0
  · have hnil : m.full_history = [] := by
      rcases h with h1 | h2
      · rw [h0] at h1
        exact List.length_eq_zero.mp (Nat.le_zero.mp h1)
      · exact absurd h0 h2
    simp [h0, hnil]
  · simp [h0]

/-- Evaluation of C3's theorem at a concrete state with a non-empty window. -/
theorem get_context_system_then_suffix_witness :
    (ChatMemory.mk 2 [] [⟨"user", "a"⟩, ⟨"assistant", "b"⟩]).get_context "sys" =
      ⟨"system", "sys"⟩ ::
        (ChatMemory.mk 2 [] [⟨"user", "a"⟩, ⟨"assistant", "b"⟩]).full_history.drop
          ((ChatMemory.mk 2 [] [⟨"user", "a"⟩, ⟨"assistant", "b"⟩]).full_history.length - 2) :=
  get_context_system_then_suffix
    (ChatMemory.mk 2 [] [⟨"user", "a"⟩, ⟨"assistant", "b"⟩]) "sys" (Or.inl (by decide))

/-- C4: eviction is strictly FIFO. First conjunct: the window after a call is
the suffix of `old window ++ [new message]` obtained by dropping exactly the
overflow from the front. Second conjunct: in particular the new window is a
suffix of `old window ++ [new message]` (only oldest entries are removed, from
the front). Third conjunct: the concrete scenario with `max_messages = 2`. -/
theorem eviction_fifo :
    (∀ (m : ChatMemory) (role content : String),
        (m.add_message role content).full_history =
          (m.full_history ++ [Message.mk role content]).drop
            ((m.full_history.length + 1) - m.max_messages)) ∧
    (∀ (m : ChatMemory) (role content : String),
        List.IsSuffix (m.add_message role content).full_history
          (m.full_history ++ [Message.mk role content])) ∧
    (addMany (ChatMemory.new 2)
        [("user", "a"), ("assistant", "b"), ("user", "c")]).full_history =
      [⟨"assistant", "b"⟩, ⟨"user", "c"⟩] := by
  refine ⟨add_message_full_history, ?_, by decide⟩
  intro m role content
  rw [add_message_full_history]
  exact List.drop_suffix _ _

/-- C5: the displayed list `messages` is never trimmed. First conjunct: each
`add_message` call appends exactly its `{role, content}` pair to the end of
`messages`. Second conjunct: starting from an empty `ChatMemory` with any
bound `N`, after a sequence of calls `messages` is exactly the list of pairs
passed. Third conjunct: hence its length equals the number of calls made. -/
theorem displayed_never_trimmed :
    (∀ (m : ChatMemory) (role content : String),
        (m.add_message role content).messages = m.messages ++ [⟨role, content⟩]) ∧
    (∀ (N : Nat) (calls : List (String × String)),
        (addMany (ChatMemory.new N) calls).messages =
          calls.map (fun rc => ⟨rc.1, rc.2⟩)) ∧
    (∀ (N : Nat) (calls : List (String × String)),
        (addMany (ChatMemory.new N) calls).messages.length = calls.length) := by
  refine ⟨add_message_messages, ?_, ?_⟩
  · intro N calls
    simpa [ChatMemory.new] using addMany_messages (ChatMemory.new N) calls
  · intro N calls
    rw [addMany_messages (ChatMemory.new N) calls]
    simp [ChatMemory.new]

/-- C6: any failed chat turn — a transport exception, or any HTTP status
other than 200 — returns `None` and leaves the memory exactly as it was. -/
theorem failure_leaves_memory_unchanged (outcome : NetOutcome)
    (prompt system_prompt : String) (memory : ChatMemory)
    (h : ∀ status data, outcome = NetOutcome.response status data → status ≠ 200) :
    query_deepseek outcome prompt system_prompt memory = (none, memory) := by
  cases outcome with
  | transportError => rfl
  | response status data =>
    have hne : status ≠ 200 := h status data rfl
    unfold query_deepseek
    by_cases h4 : 400 ≤ status
    · simp [h4]
    · simp [h4, hne]

/-- Evaluation of C6's theorem at a concrete failing turn (HTTP 500). -/
theorem failure_leaves_memory_unchanged_witness :
    query_deepseek (NetOutcome.response 500 ⟨some "oops"⟩) "p" "s"
        (ChatMemory.new 8) = (none, ChatMemory.new 8) :=
  failure_leaves_memory_unchanged _ _ _ _
    (fun status data heq => by cases heq; decide)

/-- C1 counterexample: a turn whose response is HTTP 200 with the assistant
content missing does mutate the memory — both lists change — contradicting
the claim that memory is untouched when the content is empty or missing. -/
theorem empty_reply_still_mutates :
    (query_deepseek (NetOutcome.response 200 ⟨none⟩) "hi" "sys"
        (ChatMemory.new 8)).2.full_history =
      [⟨"user", "hi"⟩, ⟨"assistant", ""⟩] ∧
    (query_deepseek (NetOutcome.response 200 ⟨none⟩) "hi" "sys"
        (ChatMemory.new 8)).2.messages =
      [⟨"user", "hi"⟩, ⟨"assistant", ""⟩] ∧
    (query_deepseek (NetOutcome.response 200 ⟨none⟩) "hi" "sys"
        (ChatMemory.new 8)).2 ≠ ChatMemory.new 8 := by
  refine ⟨by decide, by decide, by decide⟩

/-- C1 amended: on every HTTP 200 response the client appends the user prompt
and then the assistant content — which defaults to the empty string when
empty or missing — to the memory unconditionally; no emptiness check guards
the two `add_message` calls. -/
theorem http200_always_appends (prompt system_prompt : String)
    (memory : ChatMemory) (data : ResponseData) :
    query_deepseek (NetOutcome.response 200 data) prompt system_prompt memory =
      (some data,
        (memory.add_message "user" prompt).add_message "assistant"
          (data.content.getD "")) := by
  unfold query_deepseek
  norm_num

/-- C7: after `clear_memory` both lists are empty, `get_context p` is exactly
the single system message for every `p`, and `max_messages` is unchanged. -/
theorem clear_resets (m : ChatMemory) (p : String) :
    (m.clear_memory).messages = [] ∧
    (m.clear_memory).full_history = [] ∧
    (m.clear_memory).get_context p = [⟨"system", p⟩] ∧
    (m.clear_memory).max_messages = m.max_messages := by
  refine ⟨rfl, rfl, ?_, rfl⟩
  show ⟨"system", p⟩ :: sliceLast [] m.max_messages = _
  unfold sliceLast
  by_cases h0 : m.max_messages = 0 <;> simp [h0]

/-- C8: the `get_context` method call, embedded as a state transition, is
read-only: the outgoing state is the incoming one (so `messages`,
`full_history` and `max_messages` are untouched), and two consecutive calls
with the same prompt and no intervening mutation return equal results. -/
theorem get_context_pure (m : ChatMemory) (p : String) :
    (m.get_contextS p).2 = m ∧
    ((m.get_contextS p).2.get_contextS p).1 = (m.get_contextS p).1 ∧
    (m.get_contextS p).2.messages = m.messages ∧
    (m.get_contextS p).2.full_history = m.full_history ∧
    (m.get_contextS p).2.max_messages = m.max_messages :=
  ⟨rfl, rfl, rfl, rfl, rfl⟩

/-- C9 counterexample: a successfully processed plain-text file whose decoded
content has 1001 characters produces a per-file string of 1019 characters —
the 1000-character cap applies only to the embedded excerpt, not to the whole
tagged string, so the claim's bound on the produced string is false. -/
theorem file_string_exceeds_cap :
    MAX_FILE_CONTENT <
      (process_uploaded_files
        [⟨"a", false, ⟨List.replicate 1001 'x'⟩, true⟩]).length := by
  have h1 : process_uploaded_files
      [⟨"a", false, ⟨List.replicate 1001 'x'⟩, true⟩] =
      "FILE_CONTENT:" ++ "a" ++ ": " ++
        strSlice ⟨List.replicate 1001 'x'⟩ MAX_FILE_CONTENT ++ "..." := rfl
  have h2 : (strSlice ⟨List.replicate 1001 'x'⟩ MAX_FILE_CONTENT).length = 1000 := by
    show ((List.replicate 1001 'x').take MAX_FILE_CONTENT).length = 1000
    rw [List.length_take, List.length_replicate]
    decide
  rw [h1]
  simp only [String.length_append, h2]
  decide

/-- C9 amended: for every successfully processed file the extractor truncates
the extracted text to at most `MAX_FILE_CONTENT = 1000` characters and emits
the provenance tag (`PDF_CONTENT` or `FILE_CONTENT`), the original file name,
a separator, the truncated excerpt and a trailing ellipsis; the per-file
strings of multiple files are concatenated with newline separators. -/
theorem file_excerpt_capped (f g : UploadedFile)
    (hf : f.readOk = true) (hg : g.readOk = true) :
    (∀ u : UploadedFile,
        processOneFile u =
          (if u.isPdf then "PDF_CONTENT:" else "FILE_CONTENT:") ++ u.name ++
            ": " ++ strSlice u.text MAX_FILE_CONTENT ++ "..." ∧
        (strSlice u.text MAX_FILE_CONTENT).length ≤ MAX_FILE_CONTENT) ∧
    process_uploaded_files [f, g] =
      processOneFile f ++ "\n" ++ processOneFile g := by
  constructor
  · intro u
    constructor
    · cases hp : u.isPdf <;> simp [processOneFile, hp]
    · show (u.text.data.take MAX_FILE_CONTENT).length ≤ MAX_FILE_CONTENT
      simp [List.length_take]
  · simp only [process_uploaded_files, List.filter, hf, hg, List.map]
    rfl

/-- Evaluation of C9's amended theorem at two concrete files. -/
theorem file_excerpt_capped_witness :
    process_uploaded_files
        [⟨"a.pdf", true, "doc", true⟩, ⟨"b.txt", false, "note", true⟩] =
      processOneFile ⟨"a.pdf", true, "doc", true⟩ ++ "\n" ++
        processOneFile ⟨"b.txt", false, "note", true⟩ :=
  (file_excerpt_capped ⟨"a.pdf", true, "doc", true⟩
    ⟨"b.txt", false, "note", true⟩ rfl rfl).2

theorem applyOp_max (m : ChatMemory) (op : MemOp) :
    (applyOp m op).max_messages = m.max_messages := by
  cases op <;> rfl

theorem runOps_max (m : ChatMemory) (ops : List MemOp) :
    (runOps m ops).max_messages = m.max_messages := by
  induction ops generalizing m with
  | nil => rfl
  | cons op rest ih => rw [runOps, ih, applyOp_max]

theorem applyOp_preserves_suffix (m : ChatMemory) (op : MemOp)
    (h : m.full_history =
      m.messages.drop (m.messages.length - m.max_messages)) :
    (applyOp m op).full_history =
      (applyOp m op).messages.drop
        ((applyOp m op).messages.length - (applyOp m op).max_messages) := by
  cases op with
  | clear => simp [applyOp, ChatMemory.clear_memory]
  | initSession => exact h
  | add role content =>
    have e : applyOp m (MemOp.add role content) = m.add_message role content := rfl
    rw [e, add_message_full_history, add_message_messages, add_message_max, h]
    rw [← List.drop_append_of_le_length (Nat.sub_le m.messages.length m.max_messages)]
    rw [List.drop_drop]
    congr 1
    simp only [List.length_drop, List.length_append, List.length_cons,
      List.length_nil]
    omega

theorem runOps_preserves_suffix (m : ChatMemory) (ops : List MemOp)
    (h : m.full_history =
      m.messages.drop (m.messages.length - m.max_messages)) :
    (runOps m ops).full_history =
      (runOps m ops).messages.drop
        ((runOps m ops).messages.length - (runOps m ops).max_messages) := by
  induction ops generalizing m with
  | nil => exact h
  | cons op rest ih => exact ih (applyOp m op) (applyOp_preserves_suffix m op h)

/-- C10: after any sequence of initialize, `add_message` and `clear_memory`
operations from the empty state, the window equals the suffix of the
displayed list of length `min(len(displayed), max_messages)`; in particular
when the displayed list has at most `max_messages` entries the two lists are
identical, and the last entries of the two lists agree whenever the window is
non-empty. -/
theorem window_displayed_invariant (N : Nat) (ops : List MemOp) :
    (runOps (ChatMemory.new N) ops).full_history =
      (runOps (ChatMemory.new N) ops).messages.drop
        ((runOps (ChatMemory.new N) ops).messages.length - N) ∧
    (runOps (ChatMemory.new N) ops).max_messages = N ∧
    ((runOps (ChatMemory.new N) ops).messages.length ≤ N →
      (runOps (ChatMemory.new N) ops).full_history =
        (runOps (ChatMemory.new N) ops).messages) ∧
    ((runOps (ChatMemory.new N) ops).full_history ≠ [] →
      (runOps (ChatMemory.new N) ops).full_history.getLast? =
        (runOps (ChatMemory.new N) ops).messages.getLast?) := by
  have hmax : (runOps (ChatMemory.new N) ops).max_messages = N :=
    runOps_max (ChatMemory.new N) ops
  have hsuf := runOps_preserves_suffix (ChatMemory.new N) ops (by simp [ChatMemory.new])
  rw [hmax] at hsuf
  refine ⟨hsuf, hmax, ?_, ?_⟩
  · intro hlen
    rw [hsuf, Nat.sub_eq_zero_of_le hlen, List.drop_zero]
  · intro hne
    rw [hsuf] at hne ⊢
    exact getLast?_drop_of_ne_nil _ _ hne

/-- Evaluation of C10's theorem at a concrete operation sequence that
overflows a window of bound 2. -/
theorem window_displayed_invariant_witness :
    (runOps (ChatMemory.new 2)
        [MemOp.add "user" "a", MemOp.add "assistant" "b",
          MemOp.add "user" "c"]).full_history.getLast? =
      (runOps (ChatMemory.new 2)
        [MemOp.add "user" "a", MemOp.add "assistant" "b",
          MemOp.add "user" "c"]).messages.getLast? :=
  (window_displayed_invariant 2
      [MemOp.add "user" "a", MemOp.add "assistant" "b",
        MemOp.add "user" "c"]).2.2.2 (by decide)

end DeepseekAI
